import Mathlib

/-!
Verification development for the `roq` credential verifier (main.go).

The Go program is embedded shallowly:
* JSON values (`encoding/json` decoding of a response body into
  `map[string]interface{}`) are modelled by the inductive `Json`, with objects
  as association lists;
* Go strings are modelled by Lean `String` (a sequence of characters);
* the network is abstracted: `verifyHTTP` takes the transport outcome
  (`HTTPResponse`) and `verifyAWS` takes the outcome of the AWS SDK calls
  (`AWSOutcome`) as explicit parameters, so both strategies are pure functions
  of the data the Go code actually inspects;
* `time.Now()` and the rotated random user agent (`uarand.GetRandom()`) are
  passed in as the explicit parameters `now` and `ua`;
* the `text/template` engine is modelled for the fragment the service configs
  use: literal text and `.Field` chains inside double-brace actions, with a
  parse error for an unclosed action and an execution error for a field chain
  applied to a string value, mirroring Go's fallback behaviour in
  `renderTemplate`.
-/

set_option autoImplicit false

namespace Roq

/-- JSON values as decoded by Go's `encoding/json` into `interface\x7b\x7d`:
strings, numbers (modelled as integers), booleans, null, objects
(association lists) and arrays. -/
inductive Json where
  | str : String → Json
  | num : Int → Json
  | bool : Bool → Json
  | null : Json
  | obj : List (String × Json) → Json
  | arr : List Json → Json

/-- Model of Go's default textual stringification of a decoded JSON value
(the result of applying the format verb for a default representation to the
value, as the Go code does in the default branch of `flattenJSON`). -/
def goStr : Json → String
  | .str s => s
  | .num n => toString n
  | .bool b => if b then "true" else "false"
  | .null => "<nil>"
  | .obj fields => "map[" ++ goStrFields fields ++ "]"
  | .arr xs => "[" ++ goStrList xs ++ "]"
where
  /-- space-separated rendering of array elements -/
  goStrList : List Json → String
    | [] => ""
    | [x] => goStr x
    | x :: y :: rest => goStr x ++ " " ++ goStrList (y :: rest)
  /-- space-separated `key:value` rendering of object fields -/
  goStrFields : List (String × Json) → String
    | [] => ""
    | [kv] => kv.1 ++ ":" ++ goStr kv.2
    | kv :: kv2 :: rest => kv.1 ++ ":" ++ goStr kv.2 ++ " " ++ goStrFields (kv2 :: rest)

/-- Embedding of `flattenJSON` (main.go): string values are kept under their
key; object values contribute `parentKey.childKey` entries for string-valued
children only; every other value is kept under its key stringified. -/
def flattenJSON (data : List (String × Json)) : List (String × String) :=
  data.flatMap fun kv =>
    match kv.2 with
    | .str v => [(kv.1, v)]
    | .obj sub => sub.filterMap fun skv =>
        match skv.2 with
        | .str s => some (kv.1 ++ "." ++ skv.1, s)
        | _ => none
    | v => [(kv.1, goStr v)]

/-- Embedding of `maskKey` (main.go): credentials of length at most 8 are
fully masked to a 4-character placeholder; longer credentials keep their
first and last 4 characters with the middle replaced by asterisks. -/
def maskKey (key : String) : String :=
  if key.length ≤ 8 then "****"
  else String.mk (key.toList.take 4
        ++ List.replicate (key.length - 8) '*'
        ++ key.toList.drop (key.length - 4))

/-- Template node: a literal character or an action holding a field chain. -/
inductive Node where
  | lit : Char → Node
  | act : List String → Node
deriving DecidableEq

/-- Splits the input at the first closing double brace, returning the text
before it and the remaining input after it; `none` when the action is
unclosed. -/
def splitOnClose : List Char → Option (List Char × List Char)
  | [] => none
  | '}' :: '}' :: rest => some ([], rest)
  | c :: rest => (splitOnClose rest).map fun p => (c :: p.1, p.2)

/-- Splits a character list on dots. -/
def splitDots : List Char → List (List Char)
  | [] => [[]]
  | '.' :: rest => [] :: splitDots rest
  | c :: rest =>
    match splitDots rest with
    | [] => [[c]]
    | p :: ps => (c :: p) :: ps

/-- Parses the text of one action: a dot followed by a non-empty field chain,
as used by the service configs; anything else is a parse error. -/
def parseAction : List Char → Except String (List String)
  | '.' :: rest =>
    let parts := splitDots rest
    if parts.any (·.isEmpty) then .error "bad action"
    else .ok (parts.map fun l => String.mk l)
  | _ => .error "unsupported action"

/-- Fuelled scanner for template text: literal characters until an opening
double brace, then an action that must be closed by a double brace. -/
def parseNodesF : Nat → List Char → Except String (List Node)
  | 0, _ => .error "out of fuel"
  | _ + 1, [] => .ok []
  | f + 1, '{' :: '{' :: rest =>
    match splitOnClose rest with
    | none => .error "unclosed action"
    | some p => do
      let a ← parseAction p.1
      let ns ← parseNodesF f p.2
      pure (Node.act a :: ns)
  | f + 1, c :: rest => do
    let ns ← parseNodesF f rest
    pure (Node.lit c :: ns)

/-- Parses a template string into nodes; the fuel is one more than the
length, which one character of progress per step can never exhaust. -/
def parseTemplate (tmpl : String) : Except String (List Node) :=
  parseNodesF (tmpl.toList.length + 1) tmpl.toList

/-- First value bound to a key in an association list of strings. -/
def lookupStr (data : List (String × String)) (k : String) : Option String :=
  (data.find? fun p => p.1 == k).map (·.2)

/-- Executes parsed template nodes against a string map, as Go's template
engine does for `map[string]string` data: a single field is looked up in the
map (a missing key prints the no-value marker), while a longer chain fails
because its second field is evaluated on a string. -/
def execNodes : List Node → List (String × String) → Except String String
  | [], _ => .ok ""
  | .lit c :: rest, data => do
    let s ← execNodes rest data
    pure (String.mk (c :: s.toList))
  | .act [f] :: rest, data => do
    let s ← execNodes rest data
    pure (((lookupStr data f).getD "<no value>") ++ s)
  | .act _ :: _, _ => .error "bad field chain"

/-- Embedding of `renderTemplate` (main.go): parse the template and execute
it against the data; on a parse or execution error return the original
template string unchanged. -/
def renderTemplate (tmpl : String) (data : List (String × String)) : String :=
  match parseTemplate tmpl with
  | .error _ => tmpl
  | .ok ns =>
    match execNodes ns data with
    | .error _ => tmpl
    | .ok s => s

/-- Whether `pre` is a prefix of `s`, over character lists. -/
def listHasPre : List Char → List Char → Bool
  | [], _ => true
  | _ :: _, [] => false
  | a :: p, b :: s => a == b && listHasPre p s

/-- Whether `sub` occurs in `s`, over character lists. -/
def listHasSub (sub : List Char) : List Char → Bool
  | [] => sub.isEmpty
  | c :: rest => listHasPre sub (c :: rest) || listHasSub sub rest

/-- Embedding of Go's substring containment on strings. -/
def containsSub (s sub : String) : Bool :=
  listHasSub sub.toList s.toList

/-- Embedding of Go's string prefix test. -/
def hasPreStr (s pre : String) : Bool :=
  listHasPre pre.toList s.toList

/-- Embedding of Go's string lower-casing, character by character. -/
def strToLower (s : String) : String :=
  String.mk (s.toList.map Char.toLower)

/-- Embedding of `ServiceConfig` (main.go): one declarative entry of the
service catalog. -/
structure ServiceConfig where
  name : String := ""
  method : String := ""
  url : String := ""
  headers : List (String × String) := []
  authType : String := ""
  authUser : String := ""
  authPass : String := ""
  successStatus : Nat := 0
  responseType : String := ""
  responseFields : List String := []
  detailsFormat : String := ""
  successField : String := ""
  errorField : String := ""
  requiresSecret : Bool := false
  secretName : String := ""
  sdkType : String := ""
  service : String := ""
  operation : String := ""
  message : String := ""
  details : String := ""
deriving DecidableEq

/-- Embedding of `VerificationResult` (main.go). -/
structure VerificationResult where
  service : String := ""
  key : String := ""
  valid : Bool := false
  message : String := ""
  details : String := ""
  timestamp : String := ""
deriving DecidableEq

/-- Outcome of decoding a response body as a JSON object: either the decoded
object, or a decoding failure (non-JSON text, or JSON that is not an
object). -/
inductive HTTPBody where
  | obj : List (String × Json) → HTTPBody
  | malformed : HTTPBody

/-- Outcome of the HTTP transport for one request: request construction
failed, the transport failed, or a response with a status and a body
arrived. -/
inductive HTTPResponse where
  | badRequest : HTTPResponse
  | failure : String → HTTPResponse
  | response : Nat → HTTPBody → HTTPResponse

/-- Outcome of the AWS SDK calls made in the live phase of `verifyAWS`:
loading the config failed, the STS `GetCallerIdentity` call returned an
error, or it succeeded with optional account and ARN values. -/
inductive AWSOutcome where
  | configError : String → AWSOutcome
  | stsError : String → AWSOutcome
  | success : Option String → Option String → AWSOutcome

/-- First value bound to a key in the decoded JSON object. -/
def jlookup (m : List (String × Json)) (k : String) : Option Json :=
  (m.find? fun p => p.1 == k).map (·.2)

/-- The non-empty error message carried by the configured error field, when
one is configured and the field is present as a non-empty string — the Go
type assertion `jsonResp[cfg.ErrorField].(string)` guarded by a non-empty
check. -/
def errorFieldMsg (cfg : ServiceConfig) (jsonResp : List (String × Json)) : Option String :=
  if cfg.errorField = "" then none
  else
    match jlookup jsonResp cfg.errorField with
    | some (.str errMsg) => if errMsg = "" then none else some errMsg
    | _ => none

/-- Embedding of the JSON-interpretation block of `verifyHTTP` (main.go),
reached when the status matches and the config declares a json response with
at least one response field, on a successfully decoded object: the error
field is checked first, then the success field, then field presence. -/
def interpretJSON (cfg : ServiceConfig) (jsonResp : List (String × Json))
    (result : VerificationResult) : VerificationResult :=
  match errorFieldMsg cfg jsonResp with
  | some errMsg => { result with valid := false, message := strToLower errMsg }
  | none =>
  if cfg.successField ≠ "" then
    match jlookup jsonResp cfg.successField with
    | some (.bool true) =>
      let details :=
        if cfg.detailsFormat ≠ "" then renderTemplate cfg.detailsFormat (flattenJSON jsonResp)
        else result.details
      { result with valid := true, message := "valid", details := details }
    | _ => { result with valid := false, message := "invalid key" }
  else
    let flattened := flattenJSON jsonResp
    if cfg.responseFields.any fun field => (lookupStr flattened field).isSome then
      let details :=
        if cfg.detailsFormat ≠ "" then renderTemplate cfg.detailsFormat flattened
        else result.details
      { result with valid := true, message := "valid", details := details }
    else
      { result with valid := false, message := "invalid key" }

/-- Embedding of `verifyHTTP` (main.go). The URL, header and basic-auth
renderings are computed as in the source; they shape the outgoing request,
whose outcome arrives through the abstract transport parameter `resp`. -/
def verifyHTTP (cfg : ServiceConfig) (key ua : String) (resp : HTTPResponse)
    (result : VerificationResult) : VerificationResult :=
  let _url := renderTemplate cfg.url [("Key", key)]
  let _headers := cfg.headers.map fun h =>
    (h.1, renderTemplate h.2 [("Key", key), ("UserAgent", ua)])
  let _auth :=
    if cfg.authType = "basic" then
      some (renderTemplate cfg.authUser [("Key", key)],
            renderTemplate cfg.authPass [("Key", key)])
    else none
  match resp with
  | .badRequest => { result with valid := false, message := "failed to create request" }
  | .failure e => { result with valid := false, message := "request failed: " ++ e }
  | .response status body =>
    if status = cfg.successStatus then
      if cfg.responseType = "json" ∧ 0 < cfg.responseFields.length then
        match body with
        | .obj jsonResp => interpretJSON cfg jsonResp result
        | .malformed => { result with valid := false, message := "invalid response format" }
      else
        { result with valid := true, message := "valid" }
    else
      { result with valid := false, message := "invalid (http " ++ toString status ++ ")" }

/-- Embedding of `verifyAWS` (main.go): with an empty secret only the format
of the access key is checked; with a secret the outcome of the SDK calls is
interpreted, classifying STS errors by known substrings. -/
def verifyAWS (accessKey secretKey : String) (aws : AWSOutcome)
    (result : VerificationResult) : VerificationResult :=
  if secretKey = "" then
    if hasPreStr accessKey "AKIA" ∧ accessKey.length = 20 then
      { result with
        valid := false
        message := "key format valid but secret key required"
        details := "use: roq -s aws -k AKIA... -secret YOUR_SECRET_KEY" }
    else
      { result with valid := false, message := "invalid aws access key format" }
  else
    match aws with
    | .configError e =>
      { result with valid := false, message := "failed to create aws config: " ++ e }
    | .stsError e =>
      if containsSub e "InvalidClientTokenId" then
        { result with valid := false, message := "invalid credentials (access key not found)" }
      else if containsSub e "SignatureDoesNotMatch" then
        { result with valid := false, message := "invalid credentials (incorrect secret key)" }
      else
        { result with valid := false, message := "verification failed: " ++ e }
    | .success account arn =>
      let base := { result with valid := true, message := "valid" }
      match account, arn with
      | some a, some r => { base with details := "account: " ++ a ++ ", arn: " ++ r }
      | _, _ => base

/-- Case-sensitive catalog lookup; `verifyAPIKey` lower-cases the id first,
as the Go map lookup does. -/
def lookupCfg (catalog : List (String × ServiceConfig)) (id : String) : Option ServiceConfig :=
  (catalog.find? fun p => p.1 == id).map (·.2)

/-- Embedding of `verifyAPIKey` (main.go): catalog lookup and dispatch.
The catalog (the parsed bundled services.yaml), the current time `now`, the
rotated user agent `ua` and the external outcomes `resp` and `aws` are
explicit parameters. -/
def verifyAPIKey (catalog : List (String × ServiceConfig))
    (service key secret ua now : String)
    (resp : HTTPResponse) (aws : AWSOutcome) : VerificationResult :=
  match lookupCfg catalog (strToLower service) with
  | none =>
    { service := strToLower service, key := "", valid := false
      message := "unsupported service: " ++ service, details := "", timestamp := now }
  | some cfg =>
    let result : VerificationResult :=
      { service := strToLower cfg.name, key := maskKey key, valid := false
        message := "", details := "", timestamp := now }
    if cfg.method = "GET" ∨ cfg.method = "POST" then
      verifyHTTP cfg key ua resp result
    else if cfg.method = "SDK" then
      if cfg.sdkType = "aws" then verifyAWS key secret aws result
      else { result with valid := false, message := "verification method not implemented" }
    else if cfg.method = "MANUAL" then
      { result with
        valid := false
        message := strToLower cfg.message
        details := strToLower cfg.details }
    else
      { result with valid := false, message := "verification method not implemented" }

/-- Modelled from the wording of the flattening contract: per top-level key,
a string value is kept unchanged under the key itself; an object value
contributes a `parentKey.childKey` entry for each of its string-valued
children only; every other value is kept under the top-level key as its
default textual stringification. -/
def flattenSpec : List (String × Json) → List (String × String)
  | [] => []
  | (k, Json.str s) :: rest => (k, s) :: flattenSpec rest
  | (k, Json.obj children) :: rest =>
    (children.filterMap fun c =>
      match c.2 with
      | Json.str s => some (k ++ "." ++ c.1, s)
      | _ => none) ++ flattenSpec rest
  | (k, v) :: rest => (k, goStr v) :: flattenSpec rest

end Roq

namespace Roq

/-- C2: maskKey returns the 4-character placeholder for credentials of
length at most 8; for longer credentials it keeps the first 4 and last 4
characters around a run of asterisks of length `length - 8`, so the output
length equals the input length. -/
theorem C2_maskKey_spec (key : String) :
    (key.length ≤ 8 → maskKey key = "****") ∧
    (8 < key.length →
      maskKey key = String.mk (key.toList.take 4
          ++ List.replicate (key.length - 8) '*'
          ++ key.toList.drop (key.length - 4)) ∧
      (maskKey key).length = key.length) := by
  have hl : key.toList.length = key.length := rfl
  constructor
  · intro h
    simp [maskKey, h]
  · intro h
    have hn : ¬ key.length ≤ 8 := by omega
    refine ⟨by simp [maskKey, hn], ?_⟩
    show (maskKey key).toList.length = key.length
    simp only [maskKey, if_neg hn]
    simp [List.length_take, List.length_replicate, List.length_drop, hl]
    omega

/-- Witness for C2 at a short and a long credential. -/
theorem C2_maskKey_spec_witness :
    maskKey "secret" = "****" ∧
    (maskKey "abcdefghijkl").length = ("abcdefghijkl" : String).length :=
  ⟨(C2_maskKey_spec "secret").1 (by decide),
   ((C2_maskKey_spec "abcdefghijkl").2 (by decide)).2⟩

/-- C3: flattenJSON maps each top-level key as described: strings kept
unchanged, objects contributing entries for string-valued children only,
all other values stringified under the top-level key. -/
theorem C3_flattenJSON_spec : ∀ data, flattenJSON data = flattenSpec data := by
  intro data
  induction data with
  | nil => rfl
  | cons kv rest ih =>
    obtain ⟨k, v⟩ := kv
    cases v <;> simp [flattenJSON, flattenSpec, List.flatMap_cons] <;>
      simpa [flattenJSON] using ih

/-- Counterexample to C8 as stated: an entry IS produced for an array-valued
top-level value — the code stringifies it rather than dropping it. -/
theorem C8_counterexample_array_entry :
    flattenJSON [("a", Json.arr [])] = [("a", "[]")] := rfl

/-- C8 (amended): every entry of the flattened map comes from a top-level
string field, a one-level-nested string field, or a stringified top-level
non-string non-object value (arrays included); nothing nested deeper than
one level and no non-string value inside a nested object produces an
entry. -/
theorem C8_flatten_invariant :
    ∀ (data : List (String × Json)) (e : String × String), e ∈ flattenJSON data →
      (∃ k s, e = (k, s) ∧ (k, Json.str s) ∈ data) ∨
      (∃ k children subKey s, e = (k ++ "." ++ subKey, s) ∧
        (k, Json.obj children) ∈ data ∧ (subKey, Json.str s) ∈ children) ∨
      (∃ k v, e = (k, goStr v) ∧ (k, v) ∈ data ∧
        (∀ s, v ≠ Json.str s) ∧ (∀ children, v ≠ Json.obj children)) := by
  intro data e he
  induction data with
  | nil => simp [flattenJSON] at he
  | cons kv rest ih =>
    obtain ⟨k, v⟩ := kv
    rw [flattenJSON, List.flatMap_cons] at he
    rcases List.mem_append.1 he with hhead | htail
    · cases v with
      | str s =>
        left
        simp only [List.mem_singleton] at hhead
        exact ⟨k, s, hhead, List.mem_cons_self _ _⟩
      | obj children =>
        right; left
        obtain ⟨c, hc, hce⟩ := List.mem_filterMap.1 hhead
        obtain ⟨ck, cv⟩ := c
        cases cv with
        | str s =>
          simp only [Option.some.injEq] at hce
          exact ⟨k, children, ck, s, hce.symm, List.mem_cons_self _ _, hc⟩
        | num n => exact absurd hce (by simp)
        | bool b => exact absurd hce (by simp)
        | null => exact absurd hce (by simp)
        | obj o => exact absurd hce (by simp)
        | arr xs => exact absurd hce (by simp)
      | num n =>
        right; right
        simp only [List.mem_singleton] at hhead
        exact ⟨k, Json.num n, hhead, List.mem_cons_self _ _,
          ⟨fun _ h => Json.noConfusion h, fun _ h => Json.noConfusion h⟩⟩
      | bool b =>
        right; right
        simp only [List.mem_singleton] at hhead
        exact ⟨k, Json.bool b, hhead, List.mem_cons_self _ _,
          ⟨fun _ h => Json.noConfusion h, fun _ h => Json.noConfusion h⟩⟩
      | null =>
        right; right
        simp only [List.mem_singleton] at hhead
        exact ⟨k, Json.null, hhead, List.mem_cons_self _ _,
          ⟨fun _ h => Json.noConfusion h, fun _ h => Json.noConfusion h⟩⟩
      | arr xs =>
        right; right
        simp only [List.mem_singleton] at hhead
        exact ⟨k, Json.arr xs, hhead, List.mem_cons_self _ _,
          ⟨fun _ h => Json.noConfusion h, fun _ h => Json.noConfusion h⟩⟩
    · rcases ih (by simpa [flattenJSON] using htail) with
        ⟨a, s, h1, h2⟩ | ⟨a, c, sk, s, h1, h2, h3⟩ | ⟨a, w, h1, h2, h3, h4⟩
      · exact Or.inl ⟨a, s, h1, List.mem_cons_of_mem _ h2⟩
      · exact Or.inr (Or.inl ⟨a, c, sk, s, h1, List.mem_cons_of_mem _ h2, h3⟩)
      · exact Or.inr (Or.inr ⟨a, w, h1, List.mem_cons_of_mem _ h2, h3, h4⟩)

/-- Witness for the amended C8 at a stringified numeric top-level value. -/
theorem C8_flatten_invariant_witness :
    (∃ k s, (("a", "5") : String × String) = (k, s) ∧
      (k, Json.str s) ∈ [("a", Json.num 5)]) ∨
    (∃ k children subKey s, (("a", "5") : String × String) = (k ++ "." ++ subKey, s) ∧
      (k, Json.obj children) ∈ [("a", Json.num 5)] ∧ (subKey, Json.str s) ∈ children) ∨
    (∃ k v, (("a", "5") : String × String) = (k, goStr v) ∧
      (k, v) ∈ [("a", Json.num 5)] ∧
      (∀ s, v ≠ Json.str s) ∧ (∀ children, v ≠ Json.obj children)) :=
  C8_flatten_invariant [("a", Json.num 5)] ("a", "5") (by decide)

/-- C4: renderTemplate silently degrades: on a template parse error or an
execution error it returns the original template string unchanged, and in
particular the malformed template with an unclosed action renders to
itself. -/
theorem C4_renderTemplate_fallback :
    (∀ tmpl data e, parseTemplate tmpl = .error e → renderTemplate tmpl data = tmpl) ∧
    (∀ tmpl data ns e, parseTemplate tmpl = .ok ns → execNodes ns data = .error e →
      renderTemplate tmpl data = tmpl) ∧
    renderTemplate "\x7b\x7b.Key\x7d" [("Key", "abc")] = "\x7b\x7b.Key\x7d" := by
  refine ⟨?_, ?_, ?_⟩
  · intro tmpl data e h
    simp [renderTemplate, h]
  · intro tmpl data ns e h1 h2
    simp [renderTemplate, h1, h2]
  · rfl

/-- Witness for C4: a template with an unclosed action renders to itself. -/
theorem C4_renderTemplate_fallback_witness :
    renderTemplate "\x7b\x7bbad" [("Key", "abc")] = "\x7b\x7bbad" :=
  C4_renderTemplate_fallback.1 "\x7b\x7bbad" [("Key", "abc")] "unclosed action" rfl

/-- C5: verifyAWS with an empty secret is independent of any SDK outcome
(it never contacts the network) and always invalid: a key with the AKIA
prefix and length 20 gets the secret-required message and the invocation
syntax details, any other key gets the invalid-format message and no
details. -/
theorem C5_verifyAWS_format_phase (accessKey : String) (result : VerificationResult)
    (aws aws' : AWSOutcome) (hd : result.details = "") :
    (verifyAWS accessKey "" aws result).valid = false ∧
    verifyAWS accessKey "" aws result = verifyAWS accessKey "" aws' result ∧
    ((hasPreStr accessKey "AKIA" ∧ accessKey.length = 20) →
      (verifyAWS accessKey "" aws result).message = "key format valid but secret key required" ∧
      (verifyAWS accessKey "" aws result).details =
        "use: roq -s aws -k AKIA... -secret YOUR_SECRET_KEY") ∧
    (¬ (hasPreStr accessKey "AKIA" ∧ accessKey.length = 20) →
      (verifyAWS accessKey "" aws result).message = "invalid aws access key format" ∧
      (verifyAWS accessKey "" aws result).details = "") := by
  by_cases h : (hasPreStr accessKey "AKIA" = true ∧ accessKey.length = 20)
  · refine ⟨by simp [verifyAWS, h], by simp [verifyAWS], fun _ => ⟨?_, ?_⟩, fun hc => absurd h hc⟩
    · simp [verifyAWS, h]
    · simp [verifyAWS, h]
  · refine ⟨by simp [verifyAWS, h], by simp [verifyAWS], fun hc => absurd hc h, fun _ => ⟨?_, ?_⟩⟩
    · simp [verifyAWS, h]
    · simp [verifyAWS, h, hd]

/-- Witness for C5 at a well-formed and a malformed access key. -/
theorem C5_verifyAWS_format_phase_witness :
    (Roq.verifyAWS "AKIA1234567890123456" "" (.success none none) {}).message =
      "key format valid but secret key required" ∧
    (Roq.verifyAWS "notakey" "" (.success none none) {}).message =
      "invalid aws access key format" :=
  ⟨((C5_verifyAWS_format_phase "AKIA1234567890123456" {} (.success none none)
      (.success none none) rfl).2.2.1 (by decide)).1,
   ((C5_verifyAWS_format_phase "notakey" {} (.success none none)
      (.success none none) rfl).2.2.2 (by decide)).1⟩

/-- C7: in the live phase every STS error is classified into exactly one of
three invalid verdicts: an InvalidClientTokenId error means the access key
was not found; otherwise a SignatureDoesNotMatch error means the secret key
is wrong; any other error is surfaced as a verification failure carrying the
raw cause. -/
theorem C7_verifyAWS_sts_error_classification (accessKey secretKey : String)
    (result : VerificationResult) (e : String) (hs : secretKey ≠ "") :
    (verifyAWS accessKey secretKey (.stsError e) result).valid = false ∧
    (containsSub e "InvalidClientTokenId" = true →
      (verifyAWS accessKey secretKey (.stsError e) result).message =
        "invalid credentials (access key not found)") ∧
    (containsSub e "InvalidClientTokenId" = false →
      containsSub e "SignatureDoesNotMatch" = true →
      (verifyAWS accessKey secretKey (.stsError e) result).message =
        "invalid credentials (incorrect secret key)") ∧
    (containsSub e "InvalidClientTokenId" = false →
      containsSub e "SignatureDoesNotMatch" = false →
      (verifyAWS accessKey secretKey (.stsError e) result).message =
        "verification failed: " ++ e) := by
  refine ⟨?_, fun h1 => ?_, fun h1 h2 => ?_, fun h1 h2 => ?_⟩
  · simp only [verifyAWS, if_neg hs]
    split <;> first | rfl | (split <;> rfl)
  · simp [verifyAWS, hs, h1]
  · simp [verifyAWS, hs, h1, h2]
  · simp [verifyAWS, hs, h1, h2]

/-- Witness for C7 at one error string of each class. -/
theorem C7_verifyAWS_sts_error_classification_witness :
    (Roq.verifyAWS "AKIA1234567890123456" "sek"
      (.stsError "sts: InvalidClientTokenId status 403") {}).message =
      "invalid credentials (access key not found)" ∧
    (Roq.verifyAWS "AKIA1234567890123456" "sek"
      (.stsError "sts: SignatureDoesNotMatch status 403") {}).message =
      "invalid credentials (incorrect secret key)" ∧
    (Roq.verifyAWS "AKIA1234567890123456" "sek"
      (.stsError "timeout") {}).message = "verification failed: " ++ "timeout" :=
  ⟨(C7_verifyAWS_sts_error_classification "AKIA1234567890123456" "sek" {}
      "sts: InvalidClientTokenId status 403" (by decide)).2.1 (by decide),
   ((C7_verifyAWS_sts_error_classification "AKIA1234567890123456" "sek" {}
      "sts: SignatureDoesNotMatch status 403" (by decide)).2.2.1 (by decide) (by decide)),
   ((C7_verifyAWS_sts_error_classification "AKIA1234567890123456" "sek" {}
      "timeout" (by decide)).2.2.2 (by decide) (by decide))⟩

/-- C6: an unknown service id (under its lower-cased form) yields an invalid
result whose message carries the id exactly as supplied, with no details, no
masked key, and the timestamp set. -/
theorem C6_unsupported_service (catalog : List (String × ServiceConfig))
    (service key secret ua now : String) (resp : HTTPResponse) (aws : AWSOutcome)
    (h : lookupCfg catalog (strToLower service) = none) :
    verifyAPIKey catalog service key secret ua now resp aws =
      { service := strToLower service, key := "", valid := false
        message := "unsupported service: " ++ service, details := "", timestamp := now } := by
  simp [verifyAPIKey, h]

/-- Witness for C6 on the empty catalog with a mixed-case id. -/
theorem C6_unsupported_service_witness :
    verifyAPIKey [] "FooBar" "k" "s" "ua" "t0" (.response 200 .malformed)
      (.success none none) =
      { service := "foobar", key := "", valid := false
        message := "unsupported service: FooBar", details := "", timestamp := "t0" } := by
  rw [C6_unsupported_service [] "FooBar" "k" "s" "ua" "t0" (.response 200 .malformed)
    (.success none none) rfl]
  decide

/-- C1: when a non-empty error-field name is configured and the decoded
JSON body (arriving with the configured success status on the json path with
declared response fields) holds that field as a non-empty string, verifyHTTP
is invalid with the lower-cased error string as message, whatever the
success field or the declared response fields say. -/
theorem C1_error_field_priority (cfg : ServiceConfig) (key ua : String)
    (result : VerificationResult) (jsonResp : List (String × Json)) (errMsg : String)
    (hef : cfg.errorField ≠ "")
    (hlk : jlookup jsonResp cfg.errorField = some (.str errMsg))
    (hne : errMsg ≠ "")
    (hjson : cfg.responseType = "json")
    (hfields : 0 < cfg.responseFields.length) :
    (verifyHTTP cfg key ua (.response cfg.successStatus (.obj jsonResp)) result).valid
      = false ∧
    (verifyHTTP cfg key ua (.response cfg.successStatus (.obj jsonResp)) result).message
      = strToLower errMsg := by
  have hmsg : errorFieldMsg cfg jsonResp = some errMsg := by
    simp [errorFieldMsg, hef, hlk, hne]
  constructor <;> simp [verifyHTTP, interpretJSON, hmsg, hjson, hfields]

/-- Witness for C1: both a true success field and a present declared field
are overridden by the error field. -/
theorem C1_error_field_priority_witness :
    (verifyHTTP
      { successStatus := 200, responseType := "json", responseFields := ["login"]
        successField := "ok", errorField := "error" } "k" "ua"
      (.response 200 (.obj
        [("error", Json.str "Bad Key"), ("ok", Json.bool true), ("login", Json.str "x")]))
      {}).valid = false ∧
    (verifyHTTP
      { successStatus := 200, responseType := "json", responseFields := ["login"]
        successField := "ok", errorField := "error" } "k" "ua"
      (.response 200 (.obj
        [("error", Json.str "Bad Key"), ("ok", Json.bool true), ("login", Json.str "x")]))
      {}).message = "bad key" := by
  have h := C1_error_field_priority
    { successStatus := 200, responseType := "json", responseFields := ["login"]
      successField := "ok", errorField := "error" } "k" "ua" {}
    [("error", Json.str "Bad Key"), ("ok", Json.bool true), ("login", Json.str "x")]
    "Bad Key" (by decide) rfl (by decide) rfl (by decide)
  exact ⟨h.1, h.2.trans (by decide)⟩

/-- C10: a json config with an empty response-field list behaves on a
success-status response exactly like a raw response kind: valid with message
"valid" and empty details, for every body alike, without inspecting the
body. -/
theorem C10_empty_fields_json_like_raw (cfg : ServiceConfig) (key ua : String)
    (result : VerificationResult) (body : HTTPBody)
    (_hjson : cfg.responseType = "json")
    (hfields : cfg.responseFields = [])
    (hd : result.details = "") :
    (verifyHTTP cfg key ua (.response cfg.successStatus body) result).valid = true ∧
    (verifyHTTP cfg key ua (.response cfg.successStatus body) result).message = "valid" ∧
    (verifyHTTP cfg key ua (.response cfg.successStatus body) result).details = "" ∧
    (∀ body', verifyHTTP cfg key ua (.response cfg.successStatus body) result =
      verifyHTTP cfg key ua (.response cfg.successStatus body') result) ∧
    verifyHTTP cfg key ua (.response cfg.successStatus body) result =
      verifyHTTP { cfg with responseType := "raw" } key ua
        (.response cfg.successStatus body) result := by
  have hnot : ¬ (cfg.responseType = "json" ∧ 0 < cfg.responseFields.length) := by
    simp [hfields]
  refine ⟨?_, ?_, ?_, fun body' => ?_, ?_⟩ <;>
    simp [verifyHTTP, hnot, hfields, hd]

/-- Witness for C10 at a concrete config, with a malformed body. -/
theorem C10_empty_fields_json_like_raw_witness :
    (verifyHTTP { successStatus := 200, responseType := "json" } "k" "ua"
      (.response 200 .malformed) {}).valid = true ∧
    (verifyHTTP { successStatus := 200, responseType := "json" } "k" "ua"
      (.response 200 .malformed) {}).message = "valid" :=
  ⟨(C10_empty_fields_json_like_raw { successStatus := 200, responseType := "json" }
      "k" "ua" {} .malformed rfl rfl rfl).1,
   (C10_empty_fields_json_like_raw { successStatus := 200, responseType := "json" }
      "k" "ua" {} .malformed rfl rfl rfl).2.1⟩

/-- The verdict fields of interpretJSON depend on the incoming result only
through its details field. -/
theorem interpretJSON_vmd (cfg : ServiceConfig) (jsonResp : List (String × Json))
    (r r' : VerificationResult) (hd : r.details = r'.details) :
    (interpretJSON cfg jsonResp r).valid = (interpretJSON cfg jsonResp r').valid ∧
    (interpretJSON cfg jsonResp r).message = (interpretJSON cfg jsonResp r').message ∧
    (interpretJSON cfg jsonResp r).details = (interpretJSON cfg jsonResp r').details := by
  unfold interpretJSON
  cases errorFieldMsg cfg jsonResp
  · by_cases hs : cfg.successField ≠ ""
    · simp only [if_pos hs]
      cases hj : jlookup jsonResp cfg.successField with
      | none => simp [hd]
      | some j =>
        cases j with
        | bool b => cases b <;> simp [hd]
        | str s => simp [hd]
        | num n => simp [hd]
        | null => simp [hd]
        | obj o => simp [hd]
        | arr xs => simp [hd]
    · simp only [if_neg hs]
      split <;> simp [hd]
  · simp [hd]

/-- The verdict fields of verifyHTTP do not depend on the rotated user agent
nor on the incoming result except through its details field. -/
theorem verifyHTTP_vmd (cfg : ServiceConfig) (key ua ua' : String) (resp : HTTPResponse)
    (r r' : VerificationResult) (hd : r.details = r'.details) :
    (verifyHTTP cfg key ua resp r).valid = (verifyHTTP cfg key ua' resp r').valid ∧
    (verifyHTTP cfg key ua resp r).message = (verifyHTTP cfg key ua' resp r').message ∧
    (verifyHTTP cfg key ua resp r).details = (verifyHTTP cfg key ua' resp r').details := by
  unfold verifyHTTP
  cases resp with
  | badRequest => simp [hd]
  | failure e => simp [hd]
  | response status body =>
    by_cases hst : status = cfg.successStatus
    · simp only [if_pos hst]
      by_cases hj : cfg.responseType = "json" ∧ 0 < cfg.responseFields.length
      · simp only [if_pos hj]
        cases body with
        | obj jsonResp => exact interpretJSON_vmd cfg jsonResp r r' hd
        | malformed => simp [hd]
      · simp only [if_neg hj]
        simp [hd]
    · simp only [if_neg hst]
      simp [hd]

/-- The verdict fields of verifyAWS do not depend on the incoming result
except through its details field. -/
theorem verifyAWS_vmd (accessKey secretKey : String) (aws : AWSOutcome)
    (r r' : VerificationResult) (hd : r.details = r'.details) :
    (verifyAWS accessKey secretKey aws r).valid =
      (verifyAWS accessKey secretKey aws r').valid ∧
    (verifyAWS accessKey secretKey aws r).message =
      (verifyAWS accessKey secretKey aws r').message ∧
    (verifyAWS accessKey secretKey aws r).details =
      (verifyAWS accessKey secretKey aws r').details := by
  by_cases hsec : secretKey = ""
  · unfold verifyAWS
    simp only [if_pos hsec]
    split <;> simp [hd]
  · cases aws with
    | configError e => simp [verifyAWS, hsec, hd]
    | stsError e =>
      simp only [verifyAWS, if_neg hsec]
      split
      · simp [hd]
      · split <;> simp [hd]
    | success account arn =>
      cases account <;> cases arn <;> simp [verifyAWS, hsec, hd]

/-- C9: two verifications with the same catalog, service id, credential,
secret and external outcomes agree on valid, message and details, even when
the rotated user agent and the timestamp differ between the runs. -/
theorem C9_deterministic_verdict (catalog : List (String × ServiceConfig))
    (service key secret ua ua' now now' : String)
    (resp : HTTPResponse) (aws : AWSOutcome) :
    (verifyAPIKey catalog service key secret ua now resp aws).valid =
      (verifyAPIKey catalog service key secret ua' now' resp aws).valid ∧
    (verifyAPIKey catalog service key secret ua now resp aws).message =
      (verifyAPIKey catalog service key secret ua' now' resp aws).message ∧
    (verifyAPIKey catalog service key secret ua now resp aws).details =
      (verifyAPIKey catalog service key secret ua' now' resp aws).details := by
  unfold verifyAPIKey
  cases lookupCfg catalog (strToLower service) with
  | none => simp
  | some cfg =>
    by_cases h1 : cfg.method = "GET" ∨ cfg.method = "POST"
    · simp only [if_pos h1]
      exact verifyHTTP_vmd cfg key ua ua' resp _ _ rfl
    · simp only [if_neg h1]
      by_cases h2 : cfg.method = "SDK"
      · simp only [if_pos h2]
        by_cases h3 : cfg.sdkType = "aws"
        · simp only [if_pos h3]
          exact verifyAWS_vmd key secret aws _ _ rfl
        · simp only [if_neg h3]
          simp
      · simp only [if_neg h2]
        by_cases h4 : cfg.method = "MANUAL"
        · simp only [if_pos h4]
          simp
        · simp only [if_neg h4]
          simp

end Roq
